import Mathlib

/-!
Verification development for the token-spy LLM proxy core:
provider pricing lookup and cost calculation, request analysis
(system-prompt workspace attribution), SSE stream usage extraction,
the provider registry, and the session-health analytics query.

Python sources embedded here:
  providers/base.py, providers/anthropic.py, providers/openai.py,
  providers/registry.py, db.py

Modelling conventions: Python ints counting characters or tokens are ℕ;
monetary amounts and float ratios are ℚ (floating-point representation
error is not modelled); Python dicts are association lists with
insertion-order semantics; a freshly constructed provider instance is
modelled by a fresh numeric identity drawn from a counter.
-/

/-! ## String helpers (Python `in`, `startswith`, `strip`, `lower`) -/

/-- Python substring containment on code-point lists:
`pat` occurs contiguously inside `s`. -/
def listContains (pat : List Char) : List Char → Bool
  | [] => pat.isEmpty
  | c :: rest => pat.isPrefixOf (c :: rest) || listContains pat rest

/-- Python `pat in s` for strings (code-point based). -/
def strContains (s pat : String) : Bool :=
  listContains pat.data s.data

/-- Python `str.lower()` (modelled per code point). -/
def pyLower (s : String) : String :=
  String.mk (s.data.map Char.toLower)

/-- Python `s.startswith(pre)`. -/
def pyStartsWith (s pre : String) : Bool :=
  pre.data.isPrefixOf s.data

/-- Python `str.strip()` with no arguments: remove leading and trailing
whitespace. -/
def pyStrip (s : String) : String :=
  String.mk (((s.data.dropWhile Char.isWhitespace).reverse.dropWhile
    Char.isWhitespace).reverse)

/-- Python `s[n:]` on strings (drop the first `n` code points). -/
def pyDrop (s : String) (n : ℕ) : String :=
  String.mk (s.data.drop n)

/-! ## Pricing tables and lookup
(`providers/anthropic.py` `COST_TABLE` / `get_model_pricing`,
 `providers/openai.py` `COST_TABLE` / `get_model_pricing`) -/

/-- A rate quadruple from a provider `COST_TABLE`, USD per 1M tokens. -/
structure Pricing where
  input : ℚ
  output : ℚ
  cache_read : ℚ
  cache_write : ℚ
deriving DecidableEq, Inhabited

def zeroPricing : Pricing := ⟨0, 0, 0, 0⟩

/-- `AnthropicProvider.COST_TABLE`, in source (dict insertion) order. -/
def anthropicCostTable : List (String × Pricing) := [
  ("claude-opus-4-6", ⟨5.0, 25.0, 0.50, 6.25⟩),
  ("claude-opus-4-5", ⟨5.0, 25.0, 0.50, 6.25⟩),
  ("claude-opus-4-1", ⟨15.0, 75.0, 1.50, 18.75⟩),
  ("claude-opus-4", ⟨15.0, 75.0, 1.50, 18.75⟩),
  ("claude-sonnet-4", ⟨3.0, 15.0, 0.30, 3.75⟩),
  ("claude-haiku-4-5", ⟨1.0, 5.0, 0.10, 1.25⟩),
  ("claude-haiku-3-5", ⟨0.80, 4.0, 0.08, 1.0⟩),
  ("claude-haiku", ⟨0.80, 4.0, 0.08, 1.0⟩)]

/-- `OpenAICompatibleProvider.COST_TABLE`, in source (dict insertion) order. -/
def openaiCostTable : List (String × Pricing) := [
  ("kimi-k2-0711", ⟨0.60, 3.0, 0.10, 0.60⟩),
  ("kimi-k2-0905", ⟨0.60, 2.50, 0.15, 0.60⟩),
  ("kimi-k2-thinking", ⟨0.60, 2.50, 0.15, 0.60⟩),
  ("kimi-k2.5", ⟨0.60, 2.50, 0.15, 0.60⟩),
  ("kimi-k2", ⟨0.60, 2.50, 0.15, 0.60⟩),
  ("gpt-4o", ⟨2.50, 10.0, 1.25, 0.0⟩),
  ("gpt-4o-mini", ⟨0.15, 0.60, 0.075, 0.0⟩),
  ("gpt-4-turbo", ⟨10.0, 30.0, 0.0, 0.0⟩),
  ("gpt-4", ⟨30.0, 60.0, 0.0, 0.0⟩),
  ("gpt-3.5-turbo", ⟨0.50, 1.50, 0.0, 0.0⟩),
  ("o1", ⟨15.0, 60.0, 7.50, 0.0⟩),
  ("o1-mini", ⟨3.0, 12.0, 1.50, 0.0⟩),
  ("o1-pro", ⟨150.0, 600.0, 0.0, 0.0⟩),
  ("deepseek-chat", ⟨0.27, 1.10, 0.07, 0.27⟩),
  ("deepseek-reasoner", ⟨0.55, 2.19, 0.14, 0.55⟩),
  ("qwen", ⟨0.0, 0.0, 0.0, 0.0⟩),
  ("llama", ⟨0.0, 0.0, 0.0, 0.0⟩),
  ("mistral", ⟨0.0, 0.0, 0.0, 0.0⟩)]

/-- Ordering used by `sorted(self.COST_TABLE.keys(), key=len, reverse=True)`:
`a` may come before `b` when `a` is at least as long. -/
def lenGE (a b : String) : Prop := b.length ≤ a.length

instance : DecidableRel lenGE :=
  fun a b => inferInstanceAs (Decidable (b.length ≤ a.length))

instance : IsTotal String lenGE := ⟨fun a b => Nat.le_total b.length a.length⟩

instance : IsTrans String lenGE := ⟨fun _ _ _ h1 h2 => le_trans h2 h1⟩

/-- Python's `sorted(keys, key=len, reverse=True)`: a stable sort placing
longer keys first (`List.insertionSort` with `lenGE` is stable and sorts
by the same criterion, so it produces the same list as CPython's stable
sort). -/
def sortedKeysDesc (table : List (String × Pricing)) : List String :=
  List.insertionSort lenGE (table.map Prod.fst)

/-- Python dict indexing `COST_TABLE[key]` (keys of the literal tables are
unique, so first-occurrence lookup is dict lookup). -/
def tableRates (table : List (String × Pricing)) (key : String) : Pricing :=
  ((table.find? (fun e => e.1 = key)).map Prod.snd).getD zeroPricing

/-- `get_model_pricing` shared shape of
`AnthropicProvider.get_model_pricing` / `OpenAICompatibleProvider.get_model_pricing`:
scan keys longest-first, return the table entry of the first key occurring
as a substring of the lower-cased model name; all-zero quadruple if none. -/
def get_model_pricing_over (table : List (String × Pricing)) (model : String) :
    Pricing :=
  let model_lower := pyLower model
  match (sortedKeysDesc table).find? (fun k => strContains model_lower k) with
  | some k => tableRates table k
  | none => ⟨0.0, 0.0, 0.0, 0.0⟩

/-- `AnthropicProvider.get_model_pricing` (anthropic.py lines 57-67). -/
def AnthropicProvider.get_model_pricing (model : String) : Pricing :=
  get_model_pricing_over anthropicCostTable model

/-- `OpenAICompatibleProvider.get_model_pricing` (openai.py lines 66-76). -/
def OpenAICompatibleProvider.get_model_pricing (model : String) : Pricing :=
  get_model_pricing_over openaiCostTable model

/-! ## Cost calculation (`providers/base.py` `LLMProvider.calculate_cost`) -/

/-- The `*_tokens` fields of a usage dict; `usage.get(key, 0)` makes an
absent key indistinguishable from 0. -/
structure Usage where
  input_tokens : ℕ
  output_tokens : ℕ
  cache_read_tokens : ℕ
  cache_write_tokens : ℕ
deriving DecidableEq, Inhabited

/-- `LLMProvider.calculate_cost` (base.py lines 152-168), parameterized by
the subclass's `get_model_pricing` method. -/
def calculate_cost (get_pricing : String → Pricing) (usage : Usage)
    (model : String) : ℚ :=
  let rates := get_pricing model
  usage.input_tokens * rates.input / 1000000 +
  usage.output_tokens * rates.output / 1000000 +
  usage.cache_read_tokens * rates.cache_read / 1000000 +
  usage.cache_write_tokens * rates.cache_write / 1000000

/-- The four billing categories of a rate quadruple. -/
inductive Category where
  | input | output | cache_read | cache_write
deriving DecidableEq

def categories : List Category := [.input, .output, .cache_read, .cache_write]

def Usage.tokensOf (u : Usage) : Category → ℕ
  | .input => u.input_tokens
  | .output => u.output_tokens
  | .cache_read => u.cache_read_tokens
  | .cache_write => u.cache_write_tokens

def Pricing.rateOf (p : Pricing) : Category → ℚ
  | .input => p.input
  | .output => p.output
  | .cache_read => p.cache_read
  | .cache_write => p.cache_write

/-! ## System-prompt analysis
(`providers/anthropic.py` `WORKSPACE_FILE_MAP`, `_analyze_system_prompt`,
`_analyze_messages`, `analyze_request`) -/

/-- The filenames of `AnthropicProvider.WORKSPACE_FILE_MAP`, in source
(dict insertion) order; filename k maps to the metric key
`workspace_<lowercased stem>_chars`. -/
def workspaceFileMap : List String :=
  ["AGENTS.md", "SOUL.md", "TOOLS.md", "IDENTITY.md", "USER.md",
   "HEARTBEAT.md", "BOOTSTRAP.md", "MEMORY.md"]

/-- The system-prompt part of the metrics dict built by
`_analyze_system_prompt`. -/
structure SysAnalysis where
  system_prompt_total_chars : ℕ
  base_prompt_chars : ℕ
  workspace_agents_chars : ℕ
  workspace_soul_chars : ℕ
  workspace_tools_chars : ℕ
  workspace_identity_chars : ℕ
  workspace_user_chars : ℕ
  workspace_heartbeat_chars : ℕ
  workspace_bootstrap_chars : ℕ
  workspace_memory_chars : ℕ
deriving DecidableEq

def SysAnalysis.zero : SysAnalysis := ⟨0, 0, 0, 0, 0, 0, 0, 0, 0, 0⟩

/-- `workspace_chars[metric_key] += block_len` for the metric key that
`WORKSPACE_FILE_MAP` assigns to filename `fn`. -/
def addToSection (a : SysAnalysis) (fn : String) (n : ℕ) : SysAnalysis :=
  if fn = "AGENTS.md" then
    { a with workspace_agents_chars := a.workspace_agents_chars + n }
  else if fn = "SOUL.md" then
    { a with workspace_soul_chars := a.workspace_soul_chars + n }
  else if fn = "TOOLS.md" then
    { a with workspace_tools_chars := a.workspace_tools_chars + n }
  else if fn = "IDENTITY.md" then
    { a with workspace_identity_chars := a.workspace_identity_chars + n }
  else if fn = "USER.md" then
    { a with workspace_user_chars := a.workspace_user_chars + n }
  else if fn = "HEARTBEAT.md" then
    { a with workspace_heartbeat_chars := a.workspace_heartbeat_chars + n }
  else if fn = "BOOTSTRAP.md" then
    { a with workspace_bootstrap_chars := a.workspace_bootstrap_chars + n }
  else if fn = "MEMORY.md" then
    { a with workspace_memory_chars := a.workspace_memory_chars + n }
  else a

/-- Read back the per-section counter belonging to filename `fn`. -/
def SysAnalysis.sectionChars (a : SysAnalysis) (fn : String) : ℕ :=
  if fn = "AGENTS.md" then a.workspace_agents_chars
  else if fn = "SOUL.md" then a.workspace_soul_chars
  else if fn = "TOOLS.md" then a.workspace_tools_chars
  else if fn = "IDENTITY.md" then a.workspace_identity_chars
  else if fn = "USER.md" then a.workspace_user_chars
  else if fn = "HEARTBEAT.md" then a.workspace_heartbeat_chars
  else if fn = "BOOTSTRAP.md" then a.workspace_bootstrap_chars
  else if fn = "MEMORY.md" then a.workspace_memory_chars
  else 0

/-- The inner loop of `_analyze_system_prompt`: the first filename (in
`WORKSPACE_FILE_MAP` order) whose `"## <fn>"` or `"# <fn>"` marker occurs
as a substring of the block text (the loop `break`s at the first hit). -/
def blockMatch (text : String) : Option String :=
  workspaceFileMap.find? (fun fn =>
    strContains text ("## " ++ fn) || strContains text ("# " ++ fn))

/-- One entry of an Anthropic `system` block list. A non-dict entry is
skipped by the code (`if not isinstance(block, dict): continue`); for a
dict entry, `text` holds `str(block.get("text", ""))` — the key's value
after the code's string coercion, `""` when absent. -/
inductive Block where
  | nondict
  | dict (text : String)
deriving DecidableEq

/-- The request's `system` value: a plain string, a block list, or any
other JSON value (whose Python truthiness is recorded, since
`analyze_request` tests `if system:`). -/
inductive SystemVal where
  | str (s : String)
  | blocks (bs : List Block)
  | other (truthy : Bool)
deriving DecidableEq

/-- The per-block body of `_analyze_system_prompt`'s loop: add the block
length to the running total, then to the first matching workspace section
or, failing that, to the base-prompt counter. -/
def analyzeBlock (a : SysAnalysis) (b : Block) : SysAnalysis :=
  match b with
  | .nondict => a
  | .dict text =>
    let block_len := text.length
    let a := { a with
      system_prompt_total_chars := a.system_prompt_total_chars + block_len }
    match blockMatch text with
    | some fn => addToSection a fn block_len
    | none => { a with base_prompt_chars := a.base_prompt_chars + block_len }

/-- `AnthropicProvider._analyze_system_prompt` (anthropic.py lines
107-161): a string becomes one synthetic text block; a non-list,
non-string value yields the all-zero result. -/
def _analyze_system_prompt (system : SystemVal) : SysAnalysis :=
  match system with
  | .str s => List.foldl analyzeBlock SysAnalysis.zero [Block.dict s]
  | .blocks bs => List.foldl analyzeBlock SysAnalysis.zero bs
  | .other _ => SysAnalysis.zero

/-- One chat message; `content` models the message's content value as
text (serialization of richer content is outside the claims). -/
structure Message where
  role : String
  content : String
deriving DecidableEq

def hexDigit (n : ℕ) : Char :=
  if n < 10 then Char.ofNat (48 + n) else Char.ofNat (97 + n - 10)

def hex4 (n : ℕ) : String :=
  String.mk [hexDigit (n / 4096 % 16), hexDigit (n / 256 % 16),
    hexDigit (n / 16 % 16), hexDigit (n % 16)]

/-- Escaping of one character as in `json.dumps` with its default
`ensure_ascii=True` (astral-plane surrogate pairs and the rare `\b`/`\f`
shortcuts are simplified to the generic `\uXXXX` form; no claim depends
on serialized content). -/
def jsonEscapeChar (c : Char) : String :=
  if c = '"' then "\\\""
  else if c = '\\' then "\\\\"
  else if c = '\n' then "\\n"
  else if c = '\t' then "\\t"
  else if c = '\r' then "\\r"
  else if c.toNat < 32 || c.toNat > 126 then "\\u" ++ hex4 c.toNat
  else String.mk [c]

def jsonEscape (s : String) : String :=
  String.join (s.data.map jsonEscapeChar)

/-- `json.dumps` of one message dict with `separators=(",", ":")`,
keys in insertion order (role, content). -/
def serializeMessage (m : Message) : String :=
  "\x7b\"role\":\"" ++ jsonEscape m.role ++ "\",\"content\":\"" ++
    jsonEscape m.content ++ "\"\x7d"

/-- `json.dumps(messages, separators=(",", ":"))`. -/
def serializeMessages (ms : List Message) : String :=
  "[" ++ String.intercalate "," (ms.map serializeMessage) ++ "]"

/-- The message part of the metrics dict. -/
structure MsgAnalysis where
  message_count : ℕ
  user_message_count : ℕ
  assistant_message_count : ℕ
  conversation_history_chars : ℕ
deriving DecidableEq

/-- `AnthropicProvider._analyze_messages` (anthropic.py lines 163-186);
with messages modelled as role/content records the `json.dumps`
`TypeError` branch (history chars 0) is unreachable. -/
def _analyze_messages (messages : List Message) : MsgAnalysis :=
  { message_count := messages.length
    user_message_count := (messages.filter (fun m => m.role = "user")).length
    assistant_message_count :=
      (messages.filter (fun m => m.role = "assistant")).length
    conversation_history_chars := (serializeMessages messages).length }

/-- An Anthropic request body, restricted to the keys `analyze_request`
reads. `system = none` models an absent key (`body.get("system", [])`);
`tools` is the length of the request's tools array (only its length is
read). -/
structure AnthropicBody where
  system : Option SystemVal
  messages : List Message
  tools : ℕ
deriving DecidableEq

/-- Python truthiness of the value `body.get("system", [])`. -/
def truthySystem : Option SystemVal → Bool
  | none => false
  | some (.str s) => !s.isEmpty
  | some (.blocks bs) => !bs.isEmpty
  | some (.other t) => t

/-- The full metrics dict returned by `analyze_request`. -/
structure RequestAnalysis extends SysAnalysis where
  message_count : ℕ
  user_message_count : ℕ
  assistant_message_count : ℕ
  conversation_history_chars : ℕ
  tool_count : ℕ
deriving DecidableEq

/-- `AnthropicProvider.analyze_request` (anthropic.py lines 69-105):
zero-initialized metrics, overwritten by the system-prompt analysis when
`system` is truthy, then by the message analysis and the tool count. -/
def analyze_request (body : AnthropicBody) : RequestAnalysis :=
  let sys := if truthySystem body.system then
      _analyze_system_prompt (body.system.getD (.blocks []))
    else SysAnalysis.zero
  let m := _analyze_messages body.messages
  { toSysAnalysis := sys
    message_count := m.message_count
    user_message_count := m.user_message_count
    assistant_message_count := m.assistant_message_count
    conversation_history_chars := m.conversation_history_chars
    tool_count := body.tools }

/-- Split a text into lines at newline characters. -/
def splitLinesAux : List Char → List Char → List (List Char)
  | [], acc => [acc.reverse]
  | c :: rest, acc =>
    if c = '\n' then acc.reverse :: splitLinesAux rest []
    else splitLinesAux rest (c :: acc)

/-- Modelled from the spec: "workspace-section headings are detected as a
block's text containing a line beginning with one or two heading marker
characters followed immediately by one of a fixed list of known section
filenames". The heading marker characters are rendered as the markdown
`#`/`##` prefix with its conventional following space (inputs used
against this definition are chosen so that the space-less reading gives
the same verdict). -/
def specHeadingMatch (text fn : String) : Bool :=
  (splitLinesAux text.data []).any (fun line =>
    ("# " ++ fn).data.isPrefixOf line || ("## " ++ fn).data.isPrefixOf line)

/-! ## Session-health analytics (`db.py` `query_session_status`) -/

/-- Fixed-precision display rounding, Python `round(x, d)` over our
rational model of float values (`round` rounds halves up rather than
to even; exact halves do not occur in the claims' inputs). -/
def roundTo (d : ℕ) (q : ℚ) : ℚ :=
  ((round (q * 10 ^ d) : ℤ) : ℚ) / 10 ^ d

/-- One row of the chronologically ordered 24-hour window that
`query_session_status` reads for the agent (the columns it selects,
after the code's `or 0` NULL-collapsing; ordering is positional). -/
structure UsageRow where
  conversation_history_chars : ℕ
  cache_read_tokens : ℕ
  cache_write_tokens : ℕ
  estimated_cost_usd : ℚ
deriving DecidableEq, Inhabited

/-- The reset test of the boundary-scan loop at index `i ≥ 1`:
`prev > 1000 and curr < prev * 0.5`. -/
def resetPair (rows : List UsageRow) (i : ℕ) : Prop :=
  1000 < (rows.getD (i - 1) default).conversation_history_chars ∧
  ((rows.getD i default).conversation_history_chars : ℚ) <
    ((rows.getD (i - 1) default).conversation_history_chars : ℚ) * 0.5

instance (rows : List UsageRow) (i : ℕ) : Decidable (resetPair rows i) := by
  unfold resetPair; exact inferInstance

/-- The `for i in range(1, len(rows))` loop of `query_session_status`:
the index of the last adjacent pair satisfying the reset test, 0 when
none does. -/
def lastResetIdx (rows : List UsageRow) : ℕ :=
  (List.range' 1 (rows.length - 1)).foldl
    (fun acc i => if resetPair rows i then i else acc) 0

/-- The dict returned by `query_session_status`. -/
structure SessionStatus where
  agent : String
  current_session_turns : ℕ
  current_history_chars : ℕ
  last_turn_cost : ℚ
  avg_cost_last_5 : ℚ
  cache_write_pct_last_5 : ℚ
  cost_since_last_reset : ℚ
  turns_since_last_reset : ℕ
  recommendation : String
deriving DecidableEq

/-- `query_session_status` (db.py lines 132-205) over the chronologically
ordered row window the SQL query supplies. -/
def query_session_status (agent : String) (char_limit : ℕ)
    (rows : List UsageRow) : SessionStatus :=
  if rows.isEmpty then
    { agent := agent, current_session_turns := 0, current_history_chars := 0,
      last_turn_cost := 0, avg_cost_last_5 := 0, cache_write_pct_last_5 := 0,
      cost_since_last_reset := 0, turns_since_last_reset := 0,
      recommendation := "no_data" }
  else
    let last_reset_idx := lastResetIdx rows
    let session_rows := rows.drop last_reset_idx
    let current_history :=
      (session_rows.getLastD default).conversation_history_chars
    let last_cost := (session_rows.getLastD default).estimated_cost_usd
    let total_cost := (session_rows.map (·.estimated_cost_usd)).sum
    let last_5 := session_rows.drop (session_rows.length - 5)
    let avg_cost_5 := (last_5.map (·.estimated_cost_usd)).sum /
      (max last_5.length 1 : ℕ)
    let total_cache_5 : ℕ := (last_5.map
      (fun r => r.cache_read_tokens + r.cache_write_tokens)).sum
    let total_write_5 : ℕ := (last_5.map (·.cache_write_tokens)).sum
    let cache_write_pct : ℚ := (total_write_5 : ℚ) /
      ((max total_cache_5 1 : ℕ) : ℚ)
    let recommendation :=
      if (current_history : ℚ) > (char_limit : ℚ) * 2.5 then
        "reset_recommended"
      else if current_history > char_limit * 2 then "compact_soon"
      else if current_history > char_limit then "monitor"
      else if cache_write_pct > 0.20 ∧ last_5.length ≥ 3 then
        "cache_unstable"
      else "healthy"
    { agent := agent
      current_session_turns := session_rows.length
      current_history_chars := current_history
      last_turn_cost := roundTo 6 last_cost
      avg_cost_last_5 := roundTo 6 avg_cost_5
      cache_write_pct_last_5 := roundTo 4 cache_write_pct
      cost_since_last_reset := roundTo 6 total_cost
      turns_since_last_reset := session_rows.length
      recommendation := recommendation }

/-- The spec's session-boundary example: history-character counts
[50, 5000, 40000, 500, 8000], with concrete costs attached. -/
def exampleRows : List UsageRow :=
  [⟨50, 0, 0, 3/100⟩, ⟨5000, 0, 0, 5/100⟩, ⟨40000, 0, 0, 7/100⟩,
   ⟨500, 0, 0, 2/100⟩, ⟨8000, 0, 0, 4/100⟩]

/-! ## JSON values and `json.loads`
(needed by `extract_usage_from_stream` in anthropic.py / openai.py) -/

/-- A parsed JSON value as `json.loads` produces it. -/
inductive Json where
  | null
  | bool (b : Bool)
  | num (q : ℚ)
  | str (s : String)
  | arr (elems : List Json)
  | obj (fields : List (String × Json))
deriving Inhabited

/-- Python `x is None` on a parsed JSON value (only `null` parses to the
`None` singleton). -/
def Json.isNull : Json → Bool
  | .null => true
  | _ => false

/-- Python dict assignment `d[k] = v`: overwrite in place, preserving
insertion order, appending a new key at the end. -/
def dictInsert {α : Type} (l : List (String × α)) (k : String) (v : α) :
    List (String × α) :=
  match l with
  | [] => [(k, v)]
  | (k2, v2) :: rest =>
    if k2 = k then (k, v) :: rest else (k2, v2) :: dictInsert rest k v

/-- Python dict membership/lookup (keys unique by construction). -/
def dictGet? {α : Type} (l : List (String × α)) (k : String) : Option α :=
  (l.find? (fun e => e.1 = k)).map Prod.snd

def jsonWsChar (c : Char) : Bool :=
  c = ' ' || c = '\t' || c = '\n' || c = '\r'

def skipWs (cs : List Char) : List Char := cs.dropWhile jsonWsChar

def hexVal (c : Char) : Option ℕ :=
  if 48 ≤ c.toNat ∧ c.toNat ≤ 57 then some (c.toNat - 48)
  else if 97 ≤ c.toNat ∧ c.toNat ≤ 102 then some (c.toNat - 87)
  else if 65 ≤ c.toNat ∧ c.toNat ≤ 70 then some (c.toNat - 55)
  else none

def jsonUnescape (e : Char) : Option Char :=
  if e = '"' then some '"'
  else if e = '\\' then some '\\'
  else if e = '/' then some '/'
  else if e = 'b' then some (Char.ofNat 8)
  else if e = 'f' then some (Char.ofNat 12)
  else if e = 'n' then some '\n'
  else if e = 'r' then some '\r'
  else if e = 't' then some '\t'
  else none

/-- JSON string-literal body after the opening quote, up to the closing
quote; fuelled recursion (fuel bounded by the remaining input length). -/
def parseStrBody : ℕ → List Char → Option (List Char × List Char)
  | 0, _ => none
  | _ + 1, [] => none
  | fuel + 1, c :: rest =>
    if c = '"' then some ([], rest)
    else if c = '\\' then
      match rest with
      | [] => none
      | e :: rest2 =>
        if e = 'u' then
          match rest2 with
          | a :: b :: c2 :: d :: rest3 =>
            match hexVal a, hexVal b, hexVal c2, hexVal d with
            | some ha, some hb, some hc, some hd =>
              match parseStrBody fuel rest3 with
              | some (s, r) =>
                some (Char.ofNat (((ha * 16 + hb) * 16 + hc) * 16 + hd) :: s, r)
              | none => none
            | _, _, _, _ => none
          | _ => none
        else
          match jsonUnescape e with
          | some ec =>
            match parseStrBody fuel rest2 with
            | some (s, r) => some (ec :: s, r)
            | none => none
          | none => none
    else
      match parseStrBody fuel rest with
      | some (s, r) => some (c :: s, r)
      | none => none

def digitsToNat (ds : List Char) : ℕ :=
  ds.foldl (fun a c => a * 10 + (c.toNat - 48)) 0

/-- A JSON number (optional sign, integer part, optional fraction and
exponent), as a rational. -/
def parseNumber (cs : List Char) : Option (ℚ × List Char) :=
  let (neg, cs1) := match cs with
    | '-' :: t => (true, t)
    | _ => (false, cs)
  let intDs := cs1.takeWhile Char.isDigit
  let cs2 := cs1.dropWhile Char.isDigit
  if intDs.isEmpty then none
  else
    let fracRes : Option (List Char × List Char) := match cs2 with
      | '.' :: t =>
        let fds := t.takeWhile Char.isDigit
        if fds.isEmpty then none else some (fds, t.dropWhile Char.isDigit)
      | _ => some ([], cs2)
    match fracRes with
    | none => none
    | some (fracDs, cs3) =>
      let expRes : Option (Bool × List Char × List Char) := match cs3 with
        | e :: t =>
          if e = 'e' ∨ e = 'E' then
            let (eneg, t2) := match t with
              | '+' :: t2 => (false, t2)
              | '-' :: t2 => (true, t2)
              | _ => (false, t)
            let eds := t2.takeWhile Char.isDigit
            if eds.isEmpty then none
            else some (eneg, eds, t2.dropWhile Char.isDigit)
          else some (false, [], cs3)
        | [] => some (false, [], cs3)
      match expRes with
      | none => none
      | some (eneg, expDs, cs4) =>
        let mant : ℚ := (digitsToNat intDs : ℚ) +
          (digitsToNat fracDs : ℚ) / 10 ^ fracDs.length
        let e := digitsToNat expDs
        let q := if eneg then mant / 10 ^ e else mant * 10 ^ e
        some (if neg then -q else q, cs4)

mutual

/-- One JSON value. Fuel decreases at each nesting/iteration step and
every such step consumes input, so the fuel supplied by `json_loads`
never runs out on well-formed input; running out reports a parse
failure, as a malformed input would. -/
def parseValue : ℕ → List Char → Option (Json × List Char)
  | 0, _ => none
  | fuel + 1, cs =>
    match skipWs cs with
    | [] => none
    | c :: rest =>
      if c = '"' then
        match parseStrBody (rest.length + 1) rest with
        | some (s, r) => some (.str (String.mk s), r)
        | none => none
      else if c = Char.ofNat 123 then parseObjBody fuel rest []
      else if c = '[' then parseArrBody fuel rest []
      else if c = 't' then
        match rest with
        | 'r' :: 'u' :: 'e' :: r => some (.bool true, r)
        | _ => none
      else if c = 'f' then
        match rest with
        | 'a' :: 'l' :: 's' :: 'e' :: r => some (.bool false, r)
        | _ => none
      else if c = 'n' then
        match rest with
        | 'u' :: 'l' :: 'l' :: r => some (.null, r)
        | _ => none
      else
        match parseNumber (c :: rest) with
        | some (q, r) => some (.num q, r)
        | none => none

/-- Array elements after `[`. -/
def parseArrBody : ℕ → List Char → List Json → Option (Json × List Char)
  | 0, _, _ => none
  | fuel + 1, cs, acc =>
    match skipWs cs with
    | ']' :: r => if acc.isEmpty then some (.arr [], r) else none
    | cs2 =>
      match parseValue fuel cs2 with
      | none => none
      | some (v, r) =>
        match skipWs r with
        | ',' :: r2 => parseArrBody fuel r2 (acc ++ [v])
        | ']' :: r2 => some (.arr (acc ++ [v]), r2)
        | _ => none

/-- Object members after the opening brace; duplicate keys overwrite, as
in `json.loads`. -/
def parseObjBody : ℕ → List Char → List (String × Json) →
    Option (Json × List Char)
  | 0, _, _ => none
  | fuel + 1, cs, acc =>
    match skipWs cs with
    | [] => none
    | c :: r =>
      if c = Char.ofNat 125 then
        if acc.isEmpty then some (.obj [], r) else none
      else if c = '"' then
        match parseStrBody (r.length + 1) r with
        | none => none
        | some (k, r2) =>
          match skipWs r2 with
          | ':' :: r3 =>
            match parseValue fuel r3 with
            | none => none
            | some (v, r4) =>
              let acc2 := dictInsert acc (String.mk k) v
              match skipWs r4 with
              | ',' :: r5 => parseObjBody fuel r5 acc2
              | c2 :: r5 =>
                if c2 = Char.ofNat 125 then some (.obj acc2, r5) else none
              | [] => none
          | _ => none
      else none

end

/-- `json.loads`: parse a complete JSON document, `none` on
`json.JSONDecodeError`. -/
def json_loads (s : String) : Option Json :=
  match parseValue (2 * s.length + 2) s.data with
  | some (v, rest) => if (skipWs rest).isEmpty then some v else none
  | none => none

/-! ## Python attribute/subscript semantics on parsed JSON -/

/-- Exceptions the stream extractors can raise. -/
inductive PyErr where
  | attributeError
  | typeError
  | keyError
  | indexError
deriving DecidableEq

/-- Python truthiness of a parsed JSON value. -/
def Json.truthy : Json → Bool
  | .null => false
  | .bool b => b
  | .num q => decide (q ≠ 0)
  | .str s => !s.isEmpty
  | .arr xs => !xs.isEmpty
  | .obj kvs => !kvs.isEmpty

/-- `x.get(key, dflt)`: dict lookup with default; on any non-dict value
this attribute access raises `AttributeError`. -/
def Json.pyGet (j : Json) (key : String) (dflt : Json) : Except PyErr Json :=
  match j with
  | .obj kvs => .ok ((dictGet? kvs key).getD dflt)
  | _ => .error .attributeError

/-- `x[key]` for a string key. -/
def Json.pyIndex (j : Json) (key : String) : Except PyErr Json :=
  match j with
  | .obj kvs =>
    match dictGet? kvs key with
    | some v => .ok v
    | none => .error .keyError
  | _ => .error .typeError

/-- `x[0]`. -/
def Json.pyIndex0 : Json → Except PyErr Json
  | .arr (x :: _) => .ok x
  | .arr [] => .error .indexError
  | .str s =>
    match s.data with
    | c :: _ => .ok (.str (String.mk [c]))
    | [] => .error .indexError
  | .obj _ => .error .keyError
  | _ => .error .typeError

/-! ## Stream usage extraction
(`AnthropicProvider.extract_usage_from_stream`, anthropic.py lines
204-250; `OpenAICompatibleProvider.extract_usage_from_stream`, openai.py
lines 164-208) -/

/-- `stripped[5:]` payload of a `data:` SSE line, `none` for a non-data
line. -/
def dataPayload (line : String) : Option String :=
  let stripped := pyStrip line
  if pyStartsWith stripped "data:" then some (pyStrip (pyDrop stripped 5))
  else none

/-- The `result` dict built by the Anthropic extractor's event-type
branches (a partial usage dict of raw JSON values). -/
def anthropicStreamResult (data : Json) (event_type : Option String) :
    Except PyErr (List (String × Json)) :=
  if event_type = some "message_start" then do
    let msg ← data.pyGet "message" (.obj [])
    let msg_usage ← msg.pyGet "usage" (.obj [])
    if msg_usage.truthy then do
      let it ← msg_usage.pyGet "input_tokens" (.num 0)
      let cr ← msg_usage.pyGet "cache_read_input_tokens" (.num 0)
      let cw ← msg_usage.pyGet "cache_creation_input_tokens" (.num 0)
      pure [("input_tokens", it), ("cache_read_tokens", cr),
            ("cache_write_tokens", cw)]
    else pure []
  else if event_type = some "message_delta" then do
    let delta_usage ← data.pyGet "usage" (.obj [])
    let delta ← data.pyGet "delta" (.obj [])
    let ot ← delta_usage.pyGet "output_tokens" .null
    let r1 : List (String × Json) ←
      if !ot.isNull then do
        let v ← delta_usage.pyIndex "output_tokens"
        pure [("output_tokens", v)]
      else pure []
    let sr ← delta.pyGet "stop_reason" .null
    if sr.truthy then do
      let srv ← delta.pyIndex "stop_reason"
      pure (r1 ++ [("stop_reason", srv)])
    else pure r1
  else pure []

/-- `AnthropicProvider.extract_usage_from_stream`: non-data lines, the
`[DONE]` sentinel and `JSONDecodeError` yield `none`; an empty `result`
dict yields `none` (`return result if result else None`); uncaught
Python exceptions surface as `.error`. -/
def AnthropicProvider.extract_usage_from_stream (line : String)
    (event_type : Option String) :
    Except PyErr (Option (List (String × Json))) :=
  match dataPayload line with
  | none => .ok none
  | some data_str =>
    if data_str = "[DONE]" then .ok none
    else
      match json_loads data_str with
      | none => .ok none
      | some data =>
        match anthropicStreamResult data event_type with
        | .error e => .error e
        | .ok result => .ok (if result.isEmpty then none else some result)

/-- The `result` dict built by the OpenAI extractor. -/
def openaiStreamResult (data : Json) : Except PyErr (List (String × Json)) := do
  let usage ← data.pyGet "usage" (.obj [])
  let r1 : List (String × Json) ←
    if usage.truthy then do
      let it ← usage.pyGet "prompt_tokens" (.num 0)
      let ot ← usage.pyGet "completion_tokens" (.num 0)
      let details ← usage.pyGet "prompt_tokens_details" (.obj [])
      if details.truthy then do
        let cr ← details.pyGet "cached_tokens" (.num 0)
        pure [("input_tokens", it), ("output_tokens", ot),
              ("cache_read_tokens", cr)]
      else pure [("input_tokens", it), ("output_tokens", ot)]
    else pure []
  let choices ← data.pyGet "choices" (.arr [])
  if choices.truthy then do
    let c0 ← choices.pyIndex0
    let finish_reason ← c0.pyGet "finish_reason" .null
    if finish_reason.truthy then pure (r1 ++ [("stop_reason", finish_reason)])
    else pure r1
  else pure r1

/-- `OpenAICompatibleProvider.extract_usage_from_stream` (the
`event_type` parameter is unused, as in the source). -/
def OpenAICompatibleProvider.extract_usage_from_stream (line : String)
    (_event_type : Option String) :
    Except PyErr (Option (List (String × Json))) :=
  match dataPayload line with
  | none => .ok none
  | some data_str =>
    if data_str = "[DONE]" then .ok none
    else
      match json_loads data_str with
      | none => .ok none
      | some data =>
        match openaiStreamResult data with
        | .error e => .error e
        | .ok result => .ok (if result.isEmpty then none else some result)

/-! ## Provider registry (`providers/registry.py` `ProviderRegistry`) -/

/-- The class-level mutable state of `ProviderRegistry`. A provider class
is identified by its name; a constructed instance by a numeric identity
drawn from `nextId` (two Python objects are identical iff they were
produced by the same construction). -/
structure RegState where
  providers : List (String × String)
  instances : List (String × ℕ)
  nextId : ℕ
deriving DecidableEq

abbrev ProviderConfig := List (String × String)

/-- Python truthiness of the `config` argument (`if config:`). -/
def configTruthy : Option ProviderConfig → Bool
  | none => false
  | some c => !c.isEmpty

/-- `ProviderRegistry.register`. -/
def ProviderRegistry.register (s : RegState) (name : String)
    (provider_class : String) : RegState :=
  { s with providers := dictInsert s.providers (pyLower name) provider_class }

/-- Python `", ".join(keys)`. -/
def joinComma : List String → String
  | [] => ""
  | [k] => k
  | k :: rest => k ++ ", " ++ joinComma rest

/-- The `ValueError` message of `ProviderRegistry.get`:
`f"Unknown provider: {name}. Available: {available}"` with
`available = ", ".join(keys) or "none"`. -/
def unknownProviderMsg (s : RegState) (name : String) : String :=
  let joined := joinComma (s.providers.map Prod.fst)
  let available := if joined = "" then "none" else joined
  "Unknown provider: " ++ name ++ ". Available: " ++ available

/-- `ProviderRegistry.get` (registry.py lines 29-58): error on an
unregistered name; a truthy config always constructs a fresh instance
without caching it; otherwise the shared default instance is returned,
constructed and cached on first use. -/
def ProviderRegistry.get (s : RegState) (name : String)
    (config : Option ProviderConfig) : Except String (ℕ × RegState) :=
  let name_lower := pyLower name
  match dictGet? s.providers name_lower with
  | none => .error (unknownProviderMsg s name)
  | some _cls =>
    if configTruthy config then
      .ok (s.nextId, { s with nextId := s.nextId + 1 })
    else
      match dictGet? s.instances name_lower with
      | some iid => .ok (iid, s)
      | none =>
        .ok (s.nextId, { s with
          instances := s.instances ++ [(name_lower, s.nextId)]
          nextId := s.nextId + 1 })

/-- A registry state with only the `anthropic` provider registered and no
cached instances. -/
def regS0 : RegState := ⟨[("anthropic", "AnthropicProvider")], [], 0⟩

/-- `regS0` after one default-config `get("anthropic")`. -/
def regS1 : RegState := ⟨[("anthropic", "AnthropicProvider")], [("anthropic", 0)], 1⟩

/-! ## Statement-level vocabulary -/

/-- A pricing-table key occurs as a substring of the lower-cased model
name. -/
def matchesKey (model key : String) : Prop :=
  strContains (pyLower model) key = true

instance (model key : String) : Decidable (matchesKey model key) := by
  unfold matchesKey; exact inferInstance

/-- What a pricing lookup result must satisfy: the all-zero quadruple
when no key matches; otherwise the table rates of a matching key of
maximal length; and whenever some matching key is strictly longer than
every other matching key, exactly that key's rates. -/
def pricingLookupSpec (table : List (String × Pricing)) (model : String)
    (result : Pricing) : Prop :=
  ((∀ k ∈ table.map Prod.fst, ¬ matchesKey model k) → result = zeroPricing) ∧
  ((∃ k ∈ table.map Prod.fst, matchesKey model k) →
    ∃ k ∈ table.map Prod.fst, matchesKey model k ∧
      result = tableRates table k ∧
      ∀ k2 ∈ table.map Prod.fst, matchesKey model k2 → k2.length ≤ k.length) ∧
  (∀ k1 ∈ table.map Prod.fst, matchesKey model k1 →
    (∀ k2 ∈ table.map Prod.fst, matchesKey model k2 → k2 ≠ k1 →
      k2.length < k1.length) →
    result = tableRates table k1)

/-- The text of a block as seen by `_analyze_system_prompt`'s loop body
(`none` for a skipped non-dict block). -/
def Block.textOf : Block → Option String
  | .nondict => none
  | .dict t => some t

/-- A block text whose workspace marker occurs mid-line: the code's
substring test matches it, the spec's line-beginning criterion does not
(under either reading of "followed immediately"). -/
def cexBlockText : String := "x ## AGENTS.md"

/-- The current session: the suffix of the window starting at the
detected boundary. -/
def sessionRows (rows : List UsageRow) : List UsageRow :=
  rows.drop (lastResetIdx rows)

/-- The rolling window: the last 5 records of the current session
(`session_rows[-5:]`). -/
def rollingWindow (rows : List UsageRow) : List UsageRow :=
  (sessionRows rows).drop ((sessionRows rows).length - 5)

def windowCostSum (w : List UsageRow) : ℚ :=
  (w.map (·.estimated_cost_usd)).sum

def windowCacheTotal (w : List UsageRow) : ℕ :=
  (w.map (fun r => r.cache_read_tokens + r.cache_write_tokens)).sum

def windowCacheWrites (w : List UsageRow) : ℕ :=
  (w.map (·.cache_write_tokens)).sum

/-- The current history size: the final session record's
history-character count. -/
def currentHistory (rows : List UsageRow) : ℕ :=
  ((sessionRows rows).getLastD default).conversation_history_chars

/-- The cache-write ratio over the rolling window (before display
rounding). -/
def cacheWritePct (rows : List UsageRow) : ℚ :=
  (windowCacheWrites (rollingWindow rows) : ℚ) /
    ((max (windowCacheTotal (rollingWindow rows)) 1 : ℕ) : ℚ)

/-! # Lemmas -/

/-! ## Substring containment -/

theorem listContains_iff (pat s : List Char) :
    listContains pat s = true ↔ pat <:+: s := by
  induction s with
  | nil => simp [listContains, List.isEmpty_iff, List.infix_nil]
  | cons c rest ih =>
    simp [listContains, Bool.or_eq_true, List.isPrefixOf_iff_prefix, ih,
      List.infix_cons_iff]

theorem infix_append_left {pat l1 l2 : List Char} (h : pat <:+: l2) :
    pat <:+: l1 ++ l2 := by
  obtain ⟨s, t, rfl⟩ := h
  exact ⟨l1 ++ s, t, by simp⟩

theorem strContains_of_infix {s pat : String} (h : pat.data <:+: s.data) :
    strContains s pat = true := (listContains_iff _ _).mpr h

theorem infix_joinComma {k : String} {l : List String} (h : k ∈ l) :
    k.data <:+: (joinComma l).data := by
  induction l with
  | nil => cases h
  | cons a rest ih =>
    cases rest with
    | nil =>
      rcases List.mem_singleton.mp h with rfl
      exact ⟨[], [], by simp [joinComma]⟩
    | cons b rest2 =>
      rcases List.mem_cons.mp h with rfl | hm
      · show k.data <:+: (k ++ ", " ++ joinComma (b :: rest2)).data
        rw [String.data_append, String.data_append]
        exact ((List.prefix_append k.data _).trans
          (List.prefix_append _ _)).isInfix
      · show k.data <:+: (a ++ ", " ++ joinComma (b :: rest2)).data
        rw [String.data_append, String.data_append, List.append_assoc]
        exact infix_append_left (infix_append_left (ih hm))

/-! ## First match in a length-sorted key list -/

theorem find?_some_max {p : String → Bool} {l : List String} {k : String}
    (hs : List.Pairwise lenGE l) (h : l.find? p = some k) :
    p k = true ∧ k ∈ l ∧ ∀ x ∈ l, p x = true → x.length ≤ k.length := by
  induction l with
  | nil => simp at h
  | cons a t ih =>
    rcases List.pairwise_cons.mp hs with ⟨hat, ht⟩
    by_cases hpa : p a = true
    · rw [List.find?_cons_of_pos _ hpa] at h
      obtain rfl : a = k := by injection h
      refine ⟨hpa, List.mem_cons_self _ _, ?_⟩
      intro x hx _
      rcases List.mem_cons.mp hx with rfl | hxt
      · exact le_refl _
      · exact hat x hxt
    · rw [List.find?_cons_of_neg _ hpa] at h
      obtain ⟨h1, h2, h3⟩ := ih ht h
      refine ⟨h1, List.mem_cons_of_mem _ h2, ?_⟩
      intro x hx hpx
      rcases List.mem_cons.mp hx with rfl | hxt
      · exact absurd hpx hpa
      · exact h3 x hxt hpx

theorem find?_unique_longest {p : String → Bool} {l : List String} {k : String}
    (hs : List.Pairwise lenGE l) (hk : k ∈ l) (hpk : p k = true)
    (hmax : ∀ x ∈ l, p x = true → x ≠ k → x.length < k.length) :
    l.find? p = some k := by
  induction l with
  | nil => cases hk
  | cons a t ih =>
    rcases List.pairwise_cons.mp hs with ⟨hat, ht⟩
    by_cases hpa : p a = true
    · have hak : a = k := by
        by_contra hne
        have hlt := hmax a (List.mem_cons_self _ _) hpa hne
        have hkt : k ∈ t := by
          rcases List.mem_cons.mp hk with rfl | hkt
          · exact absurd rfl (Ne.symm hne)
          · exact hkt
        have hlen := hat k hkt
        simp only [lenGE] at hlen
        omega
      subst hak
      exact List.find?_cons_of_pos _ hpa
    · have hkt : k ∈ t := by
        rcases List.mem_cons.mp hk with rfl | hkt
        · exact absurd hpk hpa
        · exact hkt
      rw [List.find?_cons_of_neg _ hpa]
      exact ih ht hkt
        (fun x hx hpx hnx => hmax x (List.mem_cons_of_mem _ hx) hpx hnx)

/-- The shared pricing-lookup routine satisfies the (amended) lookup
specification for every table and model. -/
theorem get_model_pricing_over_spec (table : List (String × Pricing))
    (model : String) :
    pricingLookupSpec table model (get_model_pricing_over table model) := by
  have hperm : (sortedKeysDesc table).Perm (table.map Prod.fst) :=
    List.perm_insertionSort lenGE _
  have hsorted : List.Pairwise lenGE (sortedKeysDesc table) :=
    List.sorted_insertionSort lenGE (table.map Prod.fst)
  cases hfind : (sortedKeysDesc table).find?
      (fun k => strContains (pyLower model) k) with
  | none =>
    have hnone := List.find?_eq_none.mp hfind
    have hres : get_model_pricing_over table model = ⟨0.0, 0.0, 0.0, 0.0⟩ := by
      unfold get_model_pricing_over
      dsimp only
      rw [hfind]
    refine ⟨fun _ => ?_, fun hex => ?_, fun k1 hk1 hm1 _ => ?_⟩
    · rw [hres]
      simp only [zeroPricing, Pricing.mk.injEq]
      norm_num
    · obtain ⟨k, hk, hmk⟩ := hex
      exact absurd hmk (hnone k (hperm.mem_iff.mpr hk))
    · exact absurd hm1 (hnone k1 (hperm.mem_iff.mpr hk1))
  | some k0 =>
    obtain ⟨hpk0, hk0mem, hmax⟩ := find?_some_max hsorted hfind
    have hres : get_model_pricing_over table model = tableRates table k0 := by
      unfold get_model_pricing_over
      dsimp only
      rw [hfind]
    have hk0keys : k0 ∈ table.map Prod.fst := hperm.mem_iff.mp hk0mem
    refine ⟨fun hno => ?_, fun _ => ?_, fun k1 hk1 hm1 huniq => ?_⟩
    · exact absurd (show matchesKey model k0 from hpk0) (hno k0 hk0keys)
    · exact ⟨k0, hk0keys, hpk0, hres,
        fun k2 hk2 hm2 => hmax k2 (hperm.mem_iff.mpr hk2) hm2⟩
    · have hk1find : (sortedKeysDesc table).find?
          (fun k => strContains (pyLower model) k) = some k1 :=
        find?_unique_longest hsorted (hperm.mem_iff.mpr hk1) hm1
          (fun x hx hpx hnx => huniq x (hperm.mem_iff.mp hx) hpx hnx)
      rw [hfind] at hk1find
      obtain rfl : k0 = k1 := by injection hk1find
      exact hres

/-! # Claim theorems -/

/-- Claim C1: for every usage dict and model name, `calculate_cost`
returns exactly the sum over the four categories (input, output,
cache-read, cache-write) of token count times the category rate of the
model's pricing lookup, divided by 1,000,000; with all four token counts
zero the cost is zero regardless of the rates. -/
theorem C1_calculate_cost (get_pricing : String → Pricing) (u : Usage)
    (model : String) :
    calculate_cost get_pricing u model =
      (categories.map (fun c =>
        (u.tokensOf c : ℚ) * (get_pricing model).rateOf c / 1000000)).sum ∧
    ((∀ c, u.tokensOf c = 0) → calculate_cost get_pricing u model = 0) := by
  constructor
  · simp only [calculate_cost, categories, Usage.tokensOf, Pricing.rateOf,
      List.map_cons, List.map_nil, List.sum_cons, List.sum_nil]
    ring
  · intro h
    have h1 := h .input
    have h2 := h .output
    have h3 := h .cache_read
    have h4 := h .cache_write
    simp only [Usage.tokensOf] at h1 h2 h3 h4
    simp [calculate_cost, h1, h2, h3, h4]

/-- Witness for C1 at a concrete all-zero usage dict and the Anthropic
pricing lookup. -/
theorem C1_calculate_cost_witness :
    calculate_cost AnthropicProvider.get_model_pricing ⟨0, 0, 0, 0⟩
      "claude-opus-4" = 0 :=
  (C1_calculate_cost AnthropicProvider.get_model_pricing ⟨0, 0, 0, 0⟩
    "claude-opus-4").2 (fun c => by cases c <;> rfl)

/-- Claim C2 (amended): the pricing lookup scans the table's keys longest
first and returns the table rates of the first key occurring as a
substring of the lower-cased model name — so it returns the all-zero
quadruple when no key occurs, the rates of a matching key of maximal
length when one does, and, whenever one matching key is strictly longer
than every other matching key, exactly that key's rates (the unqualified
two-key form of the claim is refuted by `C2_counterexample`). -/
theorem C2_pricing_lookup (model : String) :
    pricingLookupSpec anthropicCostTable model
      (AnthropicProvider.get_model_pricing model) ∧
    pricingLookupSpec openaiCostTable model
      (OpenAICompatibleProvider.get_model_pricing model) :=
  ⟨get_model_pricing_over_spec _ _, get_model_pricing_over_spec _ _⟩

/-- Witness for C2 at a concrete model name whose unique longest matching
key is `gpt-4o-mini`. -/
theorem C2_pricing_lookup_witness :
    OpenAICompatibleProvider.get_model_pricing "gpt-4o-mini-2024-07-18" =
      tableRates openaiCostTable "gpt-4o-mini" :=
  ((C2_pricing_lookup "gpt-4o-mini-2024-07-18").2).2.2 "gpt-4o-mini"
    (by decide) (by decide) (by decide)

/-- Counterexample to C2 as stated: in the model name
`claude-sonnet-4claude-haiku-4-5` both table keys `claude-sonnet-4` and
`claude-haiku` occur and the former is longer, yet the lookup does not
return the former's rates (a still longer key, `claude-haiku-4-5`, also
occurs and wins). -/
theorem C2_counterexample :
    matchesKey "claude-sonnet-4claude-haiku-4-5" "claude-sonnet-4" ∧
    matchesKey "claude-sonnet-4claude-haiku-4-5" "claude-haiku" ∧
    "claude-sonnet-4" ∈ anthropicCostTable.map Prod.fst ∧
    "claude-haiku" ∈ anthropicCostTable.map Prod.fst ∧
    "claude-haiku".length < "claude-sonnet-4".length ∧
    AnthropicProvider.get_model_pricing "claude-sonnet-4claude-haiku-4-5" ≠
      tableRates anthropicCostTable "claude-sonnet-4" := by
  refine ⟨by decide, by decide, by decide, by decide, by decide, ?_⟩
  have e1 : AnthropicProvider.get_model_pricing
      "claude-sonnet-4claude-haiku-4-5" = ⟨1.0, 5.0, 0.10, 1.25⟩ := rfl
  have e2 : tableRates anthropicCostTable "claude-sonnet-4" =
      ⟨3.0, 15.0, 0.30, 3.75⟩ := rfl
  rw [e1, e2]
  intro h
  have hinput := congrArg Pricing.input h
  norm_num at hinput

/-! ## Last-satisfying-index fold (the session boundary loop) -/

theorem foldl_keep {p : ℕ → Prop} [DecidablePred p] (l : List ℕ) (a : ℕ)
    (h : ∀ i ∈ l, ¬ p i) :
    l.foldl (fun acc i => if p i then i else acc) a = a := by
  induction l generalizing a with
  | nil => rfl
  | cons x t ih =>
    rw [List.foldl_cons, if_neg (h x (List.mem_cons_self _ _))]
    exact ih a (fun i hi => h i (List.mem_cons_of_mem _ hi))

theorem foldl_last_sat {p : ℕ → Prop} [DecidablePred p] (l1 l2 : List ℕ)
    (k a : ℕ) (hp : p k) (h2 : ∀ j ∈ l2, ¬ p j) :
    (l1 ++ k :: l2).foldl (fun acc i => if p i then i else acc) a = k := by
  rw [List.foldl_append, List.foldl_cons, if_pos hp]
  exact foldl_keep l2 k h2

theorem lastResetIdx_eq_zero (rows : List UsageRow)
    (h : ∀ i, 1 ≤ i → i < rows.length → ¬ resetPair rows i) :
    lastResetIdx rows = 0 := by
  unfold lastResetIdx
  apply foldl_keep
  intro i hi
  rw [List.mem_range'_1] at hi
  exact h i hi.1 (by omega)

theorem lastResetIdx_eq (rows : List UsageRow) (k : ℕ) (hk1 : 1 ≤ k)
    (hk2 : k < rows.length) (hp : resetPair rows k)
    (hafter : ∀ j, k < j → j < rows.length → ¬ resetPair rows j) :
    lastResetIdx rows = k := by
  unfold lastResetIdx
  have h1 : List.range' 1 (k - 1) ++ List.range' k (rows.length - k) =
      List.range' 1 (rows.length - 1) := by
    have happ := List.range'_append 1 (k - 1) (rows.length - k) 1
    rw [show 1 + 1 * (k - 1) = k by omega,
      show rows.length - k + (k - 1) = rows.length - 1 by omega] at happ
    exact happ
  have h2 : List.range' k (rows.length - k) =
      k :: List.range' (k + 1) (rows.length - 1 - k) := by
    rw [show rows.length - k = (rows.length - 1 - k) + 1 by omega,
      List.range'_succ]
  rw [← h1, h2]
  apply foldl_last_sat _ _ _ _ hp
  intro j hj
  rw [List.mem_range'_1] at hj
  exact hafter j (by omega) (by omega)

/-! ## The non-empty branch of `query_session_status`, field by field -/

theorem query_session_status_eq (agent : String) (cl : ℕ)
    (rows : List UsageRow) (h : rows ≠ []) :
    query_session_status agent cl rows =
      { agent := agent
        current_session_turns := (sessionRows rows).length
        current_history_chars := currentHistory rows
        last_turn_cost :=
          roundTo 6 ((sessionRows rows).getLastD default).estimated_cost_usd
        avg_cost_last_5 := roundTo 6 (windowCostSum (rollingWindow rows) /
          ((max (rollingWindow rows).length 1 : ℕ) : ℚ))
        cache_write_pct_last_5 := roundTo 4 (cacheWritePct rows)
        cost_since_last_reset := roundTo 6 (windowCostSum (sessionRows rows))
        turns_since_last_reset := (sessionRows rows).length
        recommendation :=
          if (currentHistory rows : ℚ) > (cl : ℚ) * 2.5 then
            "reset_recommended"
          else if currentHistory rows > cl * 2 then "compact_soon"
          else if currentHistory rows > cl then "monitor"
          else if cacheWritePct rows > 0.20 ∧ (rollingWindow rows).length ≥ 3
            then "cache_unstable"
          else "healthy" } := by
  unfold query_session_status
  rw [if_neg (by simp [List.isEmpty_iff, h])]
  rfl

/-- Claim C3: for every non-empty chronological window, the boundary is
the index of the last adjacent pair whose previous history-character
count exceeds 1000 while the current count is below half of it (0 when
no such pair exists); the current session is the suffix from that
boundary, and cost-since-reset sums exactly that suffix (rounded to the
6-decimal display precision the query applies). On the spec's example
[50, 5000, 40000, 500, 8000] the session starts at the record with
value 500 and the cost sums only the last two records. -/
theorem C3_session_boundary :
    (∀ (agent : String) (char_limit : ℕ) (rows : List UsageRow),
      rows ≠ [] →
      ((∀ i, 1 ≤ i → i < rows.length → ¬ resetPair rows i) →
        lastResetIdx rows = 0) ∧
      (∀ k, 1 ≤ k → k < rows.length → resetPair rows k →
        (∀ j, k < j → j < rows.length → ¬ resetPair rows j) →
        lastResetIdx rows = k) ∧
      (query_session_status agent char_limit rows).cost_since_last_reset =
        roundTo 6 (windowCostSum (sessionRows rows)) ∧
      (query_session_status agent char_limit rows).turns_since_last_reset =
        (sessionRows rows).length) ∧
    lastResetIdx exampleRows = 3 ∧
    sessionRows exampleRows = [⟨500, 0, 0, 2/100⟩, ⟨8000, 0, 0, 4/100⟩] ∧
    (query_session_status "main" 200000 exampleRows).cost_since_last_reset =
      2/100 + 4/100 := by
  have hexne : exampleRows ≠ [] := by simp [exampleRows]
  have hidx : lastResetIdx exampleRows = 3 := by
    apply lastResetIdx_eq exampleRows 3 (by norm_num) (by simp [exampleRows])
    · have h2 : exampleRows.getD 2 default = ⟨40000, 0, 0, 7/100⟩ := rfl
      have h3 : exampleRows.getD 3 default = ⟨500, 0, 0, 2/100⟩ := rfl
      unfold resetPair
      rw [show (3 : ℕ) - 1 = 2 from rfl, h2, h3]
      norm_num
    · intro j hj1 hj2
      have hlen : exampleRows.length = 5 := rfl
      rw [hlen] at hj2
      interval_cases j
      have h3 : exampleRows.getD 3 default = ⟨500, 0, 0, 2/100⟩ := rfl
      unfold resetPair
      rw [show (4 : ℕ) - 1 = 3 from rfl, h3]
      norm_num
  have hsess : sessionRows exampleRows =
      [⟨500, 0, 0, 2/100⟩, ⟨8000, 0, 0, 4/100⟩] := by
    unfold sessionRows
    rw [hidx]
    rfl
  refine ⟨?_, hidx, hsess, ?_⟩
  · intro agent char_limit rows h
    refine ⟨lastResetIdx_eq_zero rows, lastResetIdx_eq rows, ?_, ?_⟩
    · rw [query_session_status_eq agent char_limit rows h]
    · rw [query_session_status_eq agent char_limit rows h]
  · rw [query_session_status_eq "main" 200000 exampleRows hexne]
    show roundTo 6 (windowCostSum (sessionRows exampleRows)) = 2/100 + 4/100
    rw [hsess]
    norm_num [windowCostSum, roundTo]

/-- Witness for C3 at the spec's example window. -/
theorem C3_session_boundary_witness :
    (query_session_status "main" 200000 exampleRows).turns_since_last_reset =
      (sessionRows exampleRows).length :=
  (C3_session_boundary.1 "main" 200000 exampleRows
    (by simp [exampleRows])).2.2.2

/-- Claim C4: for every non-empty window and threshold, the
recommendation follows the priority order: history above 2.5x the
threshold gives `reset_recommended`; otherwise above 2x gives
`compact_soon`; otherwise above 1x gives `monitor`; otherwise a
cache-write ratio above 0.20 over a rolling window of at least 3 records
gives `cache_unstable`; otherwise `healthy`. -/
theorem C4_recommendation (agent : String) (char_limit : ℕ)
    (rows : List UsageRow) (h : rows ≠ []) :
    ((currentHistory rows : ℚ) > (char_limit : ℚ) * 2.5 →
      (query_session_status agent char_limit rows).recommendation =
        "reset_recommended") ∧
    (¬((currentHistory rows : ℚ) > (char_limit : ℚ) * 2.5) →
      currentHistory rows > char_limit * 2 →
      (query_session_status agent char_limit rows).recommendation =
        "compact_soon") ∧
    (¬((currentHistory rows : ℚ) > (char_limit : ℚ) * 2.5) →
      ¬(currentHistory rows > char_limit * 2) →
      currentHistory rows > char_limit →
      (query_session_status agent char_limit rows).recommendation =
        "monitor") ∧
    (¬((currentHistory rows : ℚ) > (char_limit : ℚ) * 2.5) →
      ¬(currentHistory rows > char_limit * 2) →
      ¬(currentHistory rows > char_limit) →
      cacheWritePct rows > 0.20 → (rollingWindow rows).length ≥ 3 →
      (query_session_status agent char_limit rows).recommendation =
        "cache_unstable") ∧
    (¬((currentHistory rows : ℚ) > (char_limit : ℚ) * 2.5) →
      ¬(currentHistory rows > char_limit * 2) →
      ¬(currentHistory rows > char_limit) →
      ¬(cacheWritePct rows > 0.20 ∧ (rollingWindow rows).length ≥ 3) →
      (query_session_status agent char_limit rows).recommendation =
        "healthy") := by
  rw [query_session_status_eq agent char_limit rows h]
  refine ⟨fun h1 => ?_, fun h1 h2 => ?_, fun h1 h2 h3 => ?_,
    fun h1 h2 h3 h4 h5 => ?_, fun h1 h2 h3 h4 => ?_⟩
  · show (if _ then _ else _) = _
    rw [if_pos h1]
  · show (if _ then _ else _) = _
    rw [if_neg h1, if_pos h2]
  · show (if _ then _ else _) = _
    rw [if_neg h1, if_neg h2, if_pos h3]
  · show (if _ then _ else _) = _
    rw [if_neg h1, if_neg h2, if_neg h3, if_pos ⟨h4, h5⟩]
  · show (if _ then _ else _) = _
    rw [if_neg h1, if_neg h2, if_neg h3, if_neg h4]

/-- Witness for C4: a single-record window with history 500001 against
threshold 200000 is `reset_recommended`. -/
theorem C4_recommendation_witness :
    (query_session_status "agent" 200000
      [⟨500001, 0, 0, 1⟩]).recommendation = "reset_recommended" :=
  (C4_recommendation "agent" 200000 [⟨500001, 0, 0, 1⟩] (by simp)).1
    (by norm_num [currentHistory, sessionRows, lastResetIdx])

/-- Claim C9: the rolling window is the last 5 records of the current
session (fewer when shorter — a suffix of length `min 5 n`); the
reported cache-write ratio is writes over `max 1 (reads + writes)` at
the 4-decimal display precision; the denominator is at least 1 (no
division by zero); and a window without cache activity reports ratio
zero. -/
theorem C9_rolling_window (agent : String) (char_limit : ℕ)
    (rows : List UsageRow) (h : rows ≠ []) :
    (rollingWindow rows).length = min 5 (sessionRows rows).length ∧
    rollingWindow rows <:+ sessionRows rows ∧
    (query_session_status agent char_limit rows).cache_write_pct_last_5 =
      roundTo 4 ((windowCacheWrites (rollingWindow rows) : ℚ) /
        ((max (windowCacheTotal (rollingWindow rows)) 1 : ℕ) : ℚ)) ∧
    1 ≤ max (windowCacheTotal (rollingWindow rows)) 1 ∧
    (windowCacheTotal (rollingWindow rows) = 0 →
      (query_session_status agent char_limit rows).cache_write_pct_last_5 =
        0) := by
  have hwlen : (rollingWindow rows).length = min 5 (sessionRows rows).length := by
    unfold rollingWindow
    rw [List.length_drop]
    omega
  have hpct : (query_session_status agent char_limit rows).cache_write_pct_last_5 =
      roundTo 4 ((windowCacheWrites (rollingWindow rows) : ℚ) /
        ((max (windowCacheTotal (rollingWindow rows)) 1 : ℕ) : ℚ)) := by
    rw [query_session_status_eq agent char_limit rows h]
    rfl
  refine ⟨hwlen, List.drop_suffix _ _, hpct, le_max_right _ _, fun hz => ?_⟩
  have hwr : windowCacheWrites (rollingWindow rows) = 0 := by
    have hle : windowCacheWrites (rollingWindow rows) ≤
        windowCacheTotal (rollingWindow rows) := by
      unfold windowCacheWrites windowCacheTotal
      apply List.sum_le_sum
      intro r _
      omega
    omega
  rw [hpct, hz, hwr]
  norm_num [roundTo]

/-- Witness for C9 at a concrete one-record window with no cache
activity. -/
theorem C9_rolling_window_witness :
    (query_session_status "agent" 200000
      [(⟨10, 0, 0, 0⟩ : UsageRow)]).cache_write_pct_last_5 = 0 :=
  (C9_rolling_window "agent" 200000 [⟨10, 0, 0, 0⟩] (by simp)).2.2.2.2 rfl

/-! ## Workspace attribution lemmas -/

theorem sectionChars_total_update (a : SysAnalysis) (x : ℕ) (fn : String) :
    ({ a with system_prompt_total_chars := x } : SysAnalysis).sectionChars fn =
      a.sectionChars fn := by
  unfold SysAnalysis.sectionChars
  split_ifs <;> rfl

theorem sectionChars_tb_update (a : SysAnalysis) (x y : ℕ) (fn : String) :
    ({ a with system_prompt_total_chars := x, base_prompt_chars := y } :
      SysAnalysis).sectionChars fn = a.sectionChars fn := by
  unfold SysAnalysis.sectionChars
  split_ifs <;> rfl

theorem base_addToSection (a : SysAnalysis) (fn2 : String) (n : ℕ) :
    (addToSection a fn2 n).base_prompt_chars = a.base_prompt_chars := by
  unfold addToSection
  split_ifs <;> rfl

set_option maxHeartbeats 2000000 in
theorem sectionChars_addToSection (a : SysAnalysis) (fn2 : String)
    (h : fn2 ∈ workspaceFileMap) (n : ℕ) (fn : String) :
    (addToSection a fn2 n).sectionChars fn =
      a.sectionChars fn + (if fn = fn2 then n else 0) := by
  simp only [workspaceFileMap, List.mem_cons, List.not_mem_nil, or_false] at h
  rcases h with rfl | rfl | rfl | rfl | rfl | rfl | rfl | rfl
  · have e : addToSection a "AGENTS.md" n =
        { a with workspace_agents_chars := a.workspace_agents_chars + n } := rfl
    rw [e]; unfold SysAnalysis.sectionChars; split_ifs <;> simp_all
  · have e : addToSection a "SOUL.md" n =
        { a with workspace_soul_chars := a.workspace_soul_chars + n } := rfl
    rw [e]; unfold SysAnalysis.sectionChars; split_ifs <;> simp_all
  · have e : addToSection a "TOOLS.md" n =
        { a with workspace_tools_chars := a.workspace_tools_chars + n } := rfl
    rw [e]; unfold SysAnalysis.sectionChars; split_ifs <;> simp_all
  · have e : addToSection a "IDENTITY.md" n =
        { a with workspace_identity_chars :=
          a.workspace_identity_chars + n } := rfl
    rw [e]; unfold SysAnalysis.sectionChars; split_ifs <;> simp_all
  · have e : addToSection a "USER.md" n =
        { a with workspace_user_chars := a.workspace_user_chars + n } := rfl
    rw [e]; unfold SysAnalysis.sectionChars; split_ifs <;> simp_all
  · have e : addToSection a "HEARTBEAT.md" n =
        { a with workspace_heartbeat_chars :=
          a.workspace_heartbeat_chars + n } := rfl
    rw [e]; unfold SysAnalysis.sectionChars; split_ifs <;> simp_all
  · have e : addToSection a "BOOTSTRAP.md" n =
        { a with workspace_bootstrap_chars :=
          a.workspace_bootstrap_chars + n } := rfl
    rw [e]; unfold SysAnalysis.sectionChars; split_ifs <;> simp_all
  · have e : addToSection a "MEMORY.md" n =
        { a with workspace_memory_chars := a.workspace_memory_chars + n } := rfl
    rw [e]; unfold SysAnalysis.sectionChars; split_ifs <;> simp_all

theorem analyzeBlock_dict_none (a : SysAnalysis) (t : String)
    (hm : blockMatch t = none) :
    analyzeBlock a (.dict t) =
      { a with
        system_prompt_total_chars := a.system_prompt_total_chars + t.length
        base_prompt_chars := a.base_prompt_chars + t.length } := by
  unfold analyzeBlock
  dsimp only
  rw [hm]

theorem analyzeBlock_dict_some (a : SysAnalysis) (t : String) (fn2 : String)
    (hm : blockMatch t = some fn2) :
    analyzeBlock a (.dict t) = addToSection
      { a with
        system_prompt_total_chars := a.system_prompt_total_chars + t.length }
      fn2 t.length := by
  unfold analyzeBlock
  dsimp only
  rw [hm]

theorem sectionChars_foldl (blocks : List Block) (a : SysAnalysis)
    (fn : String) (_hfn : fn ∈ workspaceFileMap) :
    (List.foldl analyzeBlock a blocks).sectionChars fn =
      a.sectionChars fn +
        (((blocks.filterMap Block.textOf).filter
          (fun t => blockMatch t = some fn)).map String.length).sum := by
  induction blocks generalizing a with
  | nil => simp
  | cons b bs ih =>
    rw [List.foldl_cons]
    cases b with
    | nondict =>
      rw [ih]
      simp [analyzeBlock, Block.textOf]
    | dict t =>
      rw [ih]
      cases hm : blockMatch t with
      | none =>
        rw [analyzeBlock_dict_none a t hm, sectionChars_tb_update]
        simp [Block.textOf, List.filter_cons, hm]
      | some fn2 =>
        have hfn2 : fn2 ∈ workspaceFileMap := List.mem_of_find?_eq_some hm
        rw [analyzeBlock_dict_some a t fn2 hm,
          sectionChars_addToSection _ _ hfn2, sectionChars_total_update]
        by_cases hf : fn = fn2
        · subst hf
          simp [Block.textOf, List.filter_cons, hm]
          omega
        · have hfs : ¬ (fn2 = fn) := fun e => hf e.symm
          simp [Block.textOf, List.filter_cons, hm, hf, hfs]

theorem base_foldl (blocks : List Block) (a : SysAnalysis) :
    (List.foldl analyzeBlock a blocks).base_prompt_chars =
      a.base_prompt_chars +
        (((blocks.filterMap Block.textOf).filter
          (fun t => blockMatch t = none)).map String.length).sum := by
  induction blocks generalizing a with
  | nil => simp
  | cons b bs ih =>
    rw [List.foldl_cons]
    cases b with
    | nondict =>
      rw [ih]
      simp [analyzeBlock, Block.textOf]
    | dict t =>
      rw [ih]
      cases hm : blockMatch t with
      | none =>
        rw [analyzeBlock_dict_none a t hm]
        simp [Block.textOf, List.filter_cons, hm]
        omega
      | some fn2 =>
        rw [analyzeBlock_dict_some a t fn2 hm, base_addToSection]
        simp [Block.textOf, List.filter_cons, hm]

/-- The partition invariant preserved by the `_analyze_system_prompt`
block loop. -/
theorem partition_foldl (blocks : List Block) (a : SysAnalysis)
    (h : a.system_prompt_total_chars = a.base_prompt_chars +
      a.workspace_agents_chars + a.workspace_soul_chars +
      a.workspace_tools_chars + a.workspace_identity_chars +
      a.workspace_user_chars + a.workspace_heartbeat_chars +
      a.workspace_bootstrap_chars + a.workspace_memory_chars) :
    (List.foldl analyzeBlock a blocks).system_prompt_total_chars =
      (List.foldl analyzeBlock a blocks).base_prompt_chars +
      (List.foldl analyzeBlock a blocks).workspace_agents_chars +
      (List.foldl analyzeBlock a blocks).workspace_soul_chars +
      (List.foldl analyzeBlock a blocks).workspace_tools_chars +
      (List.foldl analyzeBlock a blocks).workspace_identity_chars +
      (List.foldl analyzeBlock a blocks).workspace_user_chars +
      (List.foldl analyzeBlock a blocks).workspace_heartbeat_chars +
      (List.foldl analyzeBlock a blocks).workspace_bootstrap_chars +
      (List.foldl analyzeBlock a blocks).workspace_memory_chars := by
  induction blocks generalizing a with
  | nil => exact h
  | cons b bs ih =>
    rw [List.foldl_cons]
    apply ih
    cases b with
    | nondict => exact h
    | dict t =>
      cases hm : blockMatch t with
      | none =>
        rw [analyzeBlock_dict_none a t hm]
        dsimp only
        omega
      | some fn2 =>
        have hfn2 : fn2 ∈ workspaceFileMap := List.mem_of_find?_eq_some hm
        rw [analyzeBlock_dict_some a t fn2 hm]
        fin_cases hfn2 <;> simp [addToSection] <;> omega

/-- Claim C5 (amended): every block's text length is attributed to
exactly one named workspace section or to the base-prompt total; a block
is attributed to a section exactly when the `"## <filename>"` or
`"# <filename>"` marker occurs as a substring anywhere in its text (not
necessarily at a line beginning, which refutes the claim as stated — see
`C5_counterexample`), the first match in the fixed section list order
winning; blocks matching no section contribute entirely to the base
total. -/
theorem C5_workspace_attribution :
    (∀ (blocks : List Block), ∀ fn ∈ workspaceFileMap,
      (_analyze_system_prompt (.blocks blocks)).sectionChars fn =
        (((blocks.filterMap Block.textOf).filter
          (fun t => blockMatch t = some fn)).map String.length).sum) ∧
    (∀ blocks : List Block,
      (_analyze_system_prompt (.blocks blocks)).base_prompt_chars =
        (((blocks.filterMap Block.textOf).filter
          (fun t => blockMatch t = none)).map String.length).sum) := by
  constructor
  · intro blocks fn hfn
    show (List.foldl analyzeBlock SysAnalysis.zero blocks).sectionChars fn = _
    rw [sectionChars_foldl blocks SysAnalysis.zero fn hfn]
    have hz : SysAnalysis.zero.sectionChars fn = 0 := by
      unfold SysAnalysis.sectionChars SysAnalysis.zero
      split_ifs <;> rfl
    rw [hz, Nat.zero_add]
  · intro blocks
    show (List.foldl analyzeBlock SysAnalysis.zero blocks).base_prompt_chars = _
    rw [base_foldl blocks SysAnalysis.zero]
    simp [SysAnalysis.zero]

/-- Witness for C5 at a two-block system prompt whose first block carries
a `SOUL.md` heading. -/
theorem C5_workspace_attribution_witness :
    "SOUL.md" ∈ workspaceFileMap ∧
    (_analyze_system_prompt
        (.blocks [.dict "## SOUL.md intro", .dict "plain"])).sectionChars
      "SOUL.md" =
      ((([Block.dict "## SOUL.md intro",
          Block.dict "plain"].filterMap Block.textOf).filter
        (fun t => blockMatch t = some "SOUL.md")).map String.length).sum :=
  ⟨by decide, C5_workspace_attribution.1
    [.dict "## SOUL.md intro", .dict "plain"] "SOUL.md" (by decide)⟩

/-- Counterexample to C5 as stated: the block text `x ## AGENTS.md` has
no line beginning with a heading marker followed by a section filename,
so under the claim's criterion it would contribute entirely to the
base-prompt total; the code attributes all 14 of its characters to the
`AGENTS.md` section and none to the base total. -/
theorem C5_counterexample :
    specHeadingMatch cexBlockText "AGENTS.md" = false ∧
    (_analyze_system_prompt
      (.blocks [.dict cexBlockText])).workspace_agents_chars = 14 ∧
    (_analyze_system_prompt
      (.blocks [.dict cexBlockText])).base_prompt_chars = 0 :=
  ⟨by decide, by decide, by decide⟩

/-- Claim C10: `analyze_request` partitions the system prompt exactly:
the total equals the base-prompt count plus the sum of the eight
workspace section counts (counts are natural numbers, hence
non-negative). -/
theorem C10_partition (body : AnthropicBody) :
    (analyze_request body).system_prompt_total_chars =
      (analyze_request body).base_prompt_chars +
      (analyze_request body).workspace_agents_chars +
      (analyze_request body).workspace_soul_chars +
      (analyze_request body).workspace_tools_chars +
      (analyze_request body).workspace_identity_chars +
      (analyze_request body).workspace_user_chars +
      (analyze_request body).workspace_heartbeat_chars +
      (analyze_request body).workspace_bootstrap_chars +
      (analyze_request body).workspace_memory_chars := by
  unfold analyze_request
  dsimp only
  split
  · unfold _analyze_system_prompt
    cases hsv : body.system.getD (.blocks []) with
    | str s => exact partition_foldl [Block.dict s] SysAnalysis.zero rfl
    | blocks bs => exact partition_foldl bs SysAnalysis.zero rfl
    | other t => rfl
  · rfl

/-! ## Registry lemmas -/

theorem find?_append_none {α : Type} (p : α → Bool) (l1 l2 : List α)
    (h : l1.find? p = none) : (l1 ++ l2).find? p = l2.find? p := by
  induction l1 with
  | nil => rfl
  | cons a t ih =>
    by_cases hpa : p a = true
    · rw [List.find?_cons_of_pos _ hpa] at h
      exact absurd h (by simp)
    · rw [List.find?_cons_of_neg _ hpa] at h
      rw [List.cons_append, List.find?_cons_of_neg _ hpa]
      exact ih h

theorem dictGet?_append_self {α : Type} (l : List (String × α)) (k : String)
    (v : α) (h : dictGet? l k = none) :
    dictGet? (l ++ [(k, v)]) k = some v := by
  unfold dictGet? at h ⊢
  have hf : l.find? (fun e => e.1 = k) = none := by
    cases hfind : l.find? (fun e => e.1 = k) with
    | none => rfl
    | some e => rw [hfind] at h; simp at h
  rw [find?_append_none _ _ _ hf, List.find?_cons_of_pos _ (by simp)]
  rfl

theorem dictGet?_mem_snd {α : Type} {l : List (String × α)} {k : String}
    {v : α} (h : dictGet? l k = some v) : ∃ e ∈ l, e.2 = v := by
  unfold dictGet? at h
  cases hfind : l.find? (fun e => e.1 = k) with
  | none => rw [hfind] at h; simp at h
  | some e =>
    rw [hfind] at h
    simp only [Option.map_some'] at h
    exact ⟨e, List.mem_of_find?_eq_some hfind, by injection h⟩

theorem unknownProviderMsg_contains {s : RegState} {name k : String}
    (hk : k ∈ s.providers.map Prod.fst) :
    strContains (unknownProviderMsg s name) k = true := by
  unfold unknownProviderMsg
  dsimp only
  by_cases hj : joinComma (s.providers.map Prod.fst) = ""
  · rw [if_pos hj]
    have hinf := infix_joinComma hk
    rw [hj] at hinf
    have hkd : k.data = [] := List.infix_nil.mp hinf
    apply (listContains_iff _ _).mpr
    rw [hkd]
    exact List.nil_infix
  · rw [if_neg hj]
    apply strContains_of_infix
    rw [String.data_append]
    exact infix_append_left (infix_joinComma hk)

/-- Claim C6 (amended): an unregistered name fails with an error whose
message lists every registered name; a registered name requested twice
without a config returns the same cached shared instance both times; a
*truthy* (non-empty) config override always constructs a fresh instance
(`nextId`) distinct from any cached instance, without touching the
cache; and an *empty* config override behaves exactly like no override —
it returns the cached instance, refuting the claim's "always fresh"
clause (see `C6_counterexample`). -/
theorem C6_registry :
    (∀ (s : RegState) (name : String) (config : Option ProviderConfig),
      dictGet? s.providers (pyLower name) = none →
      ProviderRegistry.get s name config =
        .error (unknownProviderMsg s name) ∧
      ∀ k ∈ s.providers.map Prod.fst,
        strContains (unknownProviderMsg s name) k = true) ∧
    (∀ (s : RegState) (name : String) (cls : String),
      dictGet? s.providers (pyLower name) = some cls →
      ∃ iid s1, ProviderRegistry.get s name none = .ok (iid, s1) ∧
        ProviderRegistry.get s1 name none = .ok (iid, s1)) ∧
    (∀ (s : RegState) (name : String) (config : Option ProviderConfig)
      (cls : String) (iid : ℕ),
      dictGet? s.providers (pyLower name) = some cls →
      configTruthy config = true →
      (∀ p ∈ s.instances, p.2 < s.nextId) →
      dictGet? s.instances (pyLower name) = some iid →
      ProviderRegistry.get s name config =
        .ok (s.nextId, { s with nextId := s.nextId + 1 }) ∧
      s.nextId ≠ iid) ∧
    (∀ (s : RegState) (name : String),
      ProviderRegistry.get s name (some []) =
        ProviderRegistry.get s name none) := by
  refine ⟨?_, ?_, ?_, ?_⟩
  · intro s name config hnone
    constructor
    · unfold ProviderRegistry.get
      dsimp only
      rw [hnone]
    · intro k hk
      exact unknownProviderMsg_contains hk
  · intro s name cls hcls
    cases hinst : dictGet? s.instances (pyLower name) with
    | some iid =>
      refine ⟨iid, s, ?_, ?_⟩ <;>
        · unfold ProviderRegistry.get
          dsimp only
          rw [hcls, if_neg (by simp [configTruthy]), hinst]
    | none =>
      refine ⟨s.nextId,
        { s with instances := s.instances ++ [(pyLower name, s.nextId)]
                 nextId := s.nextId + 1 }, ?_, ?_⟩
      · unfold ProviderRegistry.get
        dsimp only
        rw [hcls, if_neg (by simp [configTruthy]), hinst]
      · unfold ProviderRegistry.get
        dsimp only
        rw [hcls, if_neg (by simp [configTruthy]),
          dictGet?_append_self _ _ _ hinst]
  · intro s name config cls iid hcls htruthy hinv hiid
    constructor
    · unfold ProviderRegistry.get
      dsimp only
      rw [hcls, if_pos htruthy]
    · obtain ⟨e, hmem, hev⟩ := dictGet?_mem_snd hiid
      have := hinv e hmem
      omega
  · intro s name
    cases hd : dictGet? s.providers (pyLower name) with
    | none =>
      unfold ProviderRegistry.get
      dsimp only
      rw [hd]
    | some cls =>
      unfold ProviderRegistry.get
      dsimp only
      rw [hd]
      simp [configTruthy]

/-- Witness for C6: a fresh instance for a non-empty config override on
`regS1`, distinct from the cached instance 0. -/
theorem C6_registry_witness :
    ProviderRegistry.get regS1 "anthropic" (some [("base_url", "http://x")]) =
      .ok (regS1.nextId, { regS1 with nextId := regS1.nextId + 1 }) ∧
    regS1.nextId ≠ 0 :=
  C6_registry.2.2.1 regS1 "anthropic" (some [("base_url", "http://x")])
    "AnthropicProvider" 0 rfl rfl (by decide) rfl

/-- Counterexample to C6 as stated: after caching instance 0 for
`anthropic` (state `regS1`), a `get` carrying the empty config override
`{}` returns that very cached instance — a supplied override does not
always construct a fresh instance, because `if config:` treats an empty
dict as no override. -/
theorem C6_counterexample :
    ProviderRegistry.get regS0 "anthropic" none = .ok (0, regS1) ∧
    dictGet? regS1.instances "anthropic" = some 0 ∧
    ProviderRegistry.get regS1 "anthropic" (some []) = .ok (0, regS1) :=
  ⟨rfl, rfl, rfl⟩

/-- Claim C7 evaluated at its failing input: the line `data: 42` is a
data frame with a valid JSON payload that is not an object; the
Anthropic extractor under event `message_start` and the OpenAI extractor
under any event reach `data.get(...)` on a non-dict and raise
`AttributeError` instead of skipping — contradicting "never raises". -/
theorem C7_stream_raises :
    AnthropicProvider.extract_usage_from_stream "data: 42"
      (some "message_start") = .error .attributeError ∧
    OpenAICompatibleProvider.extract_usage_from_stream "data: 42" none =
      .error .attributeError :=
  ⟨rfl, rfl⟩

/-- Claim C8: an empty usage window yields the all-zero status with
recommendation `no_data`. -/
theorem C8_empty_window (agent : String) (char_limit : ℕ) :
    query_session_status agent char_limit [] =
      { agent := agent, current_session_turns := 0,
        current_history_chars := 0, last_turn_cost := 0,
        avg_cost_last_5 := 0, cache_write_pct_last_5 := 0,
        cost_since_last_reset := 0, turns_since_last_reset := 0,
        recommendation := "no_data" } := rfl
